import Mathlib

/-!
Shallow embedding of the permanent-link service (`src/main.py`) and proofs
about the claims of its specification.

The embedding models:
* `get_next_consecutive_id` (id allocation over the link store keys),
* the filename sanitization / resolution logic of
  `download_and_upload_to_github`,
* `create_github_release`, `download_and_upload_to_github` and
  `create_permanent_link` as functions over an explicit model of the remote
  service's behaviour, recording the remote calls they perform,
* `load_links` over an explicit model of the backing file's state, and
* the `download_file` endpoint over an association-list store.

Library boundaries (Python stdlib / Flask / requests) are modelled by explicit
inputs: the parse outcome of `json.load`, the parsed components produced by
`urllib.parse.urlparse` / `parse_qs`, and the remote API's responses.
Python `int()` parsing and `str()` printing of integers are modelled for
ASCII inputs (sign, ASCII digits, underscore separators, ASCII whitespace
stripping).
-/

set_option maxRecDepth 4000

namespace FilesApp

/-- Python-style JSON values, the shape of what `json.load` can return and of
the records kept in `links.json`. -/
inductive PyJson where
  | str (s : String)
  | num (n : Int)
  | boolean (b : Bool)
  | null
  | arr (elems : List PyJson)
  | dict (entries : List (String × PyJson))

/-- Lookup in a Python-dict modelled as an association list (keys unique,
insertion order preserved, as in a Python `dict`). -/
def assocGet (entries : List (String × PyJson)) (k : String) : Option PyJson :=
  match entries with
  | [] => none
  | (k', v) :: rest => if k' = k then some v else assocGet rest k

/-- `d[k] = v` on a Python-dict model: overwrite in place, append if absent. -/
def assocSet (entries : List (String × PyJson)) (k : String) (v : PyJson) :
    List (String × PyJson) :=
  match entries with
  | [] => [(k, v)]
  | (k', v') :: rest => if k' = k then (k, v) :: rest else (k', v') :: assocSet rest k v

/-! ### Python `int()` parsing and `str()` printing (ASCII model)

`get_next_consecutive_id` calls `int(link_id)` on every key and `str(next_id)`
on the result; this models both for ASCII inputs. -/

/-- ASCII whitespace stripped by Python's `int()` (space, `\t`, `\n`, `\r`,
vertical tab, form feed). -/
def isPyWs (c : Char) : Bool :=
  c.toNat = 32 || c.toNat = 9 || c.toNat = 10 || c.toNat = 13 ||
    c.toNat = 11 || c.toNat = 12

/-- ASCII decimal digit. -/
def isPyDigit (c : Char) : Bool := 48 ≤ c.toNat && c.toNat ≤ 57

/-- Numeric value of an ASCII digit. -/
def digitVal (c : Char) : Nat := c.toNat - 48

/-- Core of Python's decimal digit parsing: digits with single underscores
allowed between digits (`int("1_0") = 10`, `int("_1")`, `int("1_")`,
`int("1__0")` all raise).  The boolean flag records whether the previous
character was a digit. -/
def parseDigitsCore : List Char → Nat → Bool → Option Nat
  | [], acc, true => some acc
  | [], _, false => none
  | c :: rest, acc, prev =>
    if isPyDigit c then parseDigitsCore rest (acc * 10 + digitVal c) true
    else if c = '_' && prev then parseDigitsCore rest acc false
    else none

/-- Parse a digit-and-underscore string to a natural number, Python style. -/
def digitsToNat (l : List Char) : Option Nat := parseDigitsCore l 0 false

/-- Strip ASCII whitespace from both ends, as `int()` does. -/
def pyStrip (l : List Char) : List Char :=
  ((l.dropWhile isPyWs).reverse.dropWhile isPyWs).reverse

/-- Sign handling of `int()`: optional leading `+`/`-` then digits. -/
def pyParseIntCore : List Char → Option Int
  | [] => none
  | c :: rest =>
    if c = '+' then (digitsToNat rest).map (fun n => (n : Int))
    else if c = '-' then (digitsToNat rest).map (fun n => -(n : Int))
    else (digitsToNat (c :: rest)).map (fun n => (n : Int))

/-- Model of Python `int(s)` (ASCII inputs): strip whitespace, optional sign,
decimal digits with underscore separators; `none` models `ValueError`. -/
def pyParseInt (s : String) : Option Int :=
  pyParseIntCore (pyStrip s.data)

/-- The ASCII digit character for a value `< 10` (clamped at `'9'`). -/
def digitChar (d : Nat) : Char :=
  match d with
  | 0 => '0' | 1 => '1' | 2 => '2' | 3 => '3' | 4 => '4'
  | 5 => '5' | 6 => '6' | 7 => '7' | 8 => '8' | _ => '9'

/-- Little-endian decimal digits of a natural number (fuel-based so that it
reduces inside the kernel; `natDigitsRev` supplies enough fuel). -/
def natDigitsRevAux : Nat → Nat → List Char
  | 0, _ => []
  | fuel + 1, n =>
    if n < 10 then [digitChar n]
    else digitChar (n % 10) :: natDigitsRevAux fuel (n / 10)

/-- Little-endian decimal digits of a natural number. -/
def natDigitsRev (n : Nat) : List Char := natDigitsRevAux (n + 1) n

/-- Model of Python `str(n)` for a natural number: decimal digits. -/
def pyStrNat (n : Nat) : String := ⟨(natDigitsRev n).reverse⟩

/-- Model of Python `str(i)` for an integer. -/
def pyStrInt (i : Int) : String :=
  if i < 0 then "-" ++ pyStrNat i.natAbs else pyStrNat i.natAbs

/-! ### `get_next_consecutive_id` (src/main.py lines 131-151) -/

/-- The scan of `get_next_consecutive_id` after `numeric_ids.sort()`:
walk the sorted ids, bumping `next_id` past each id equal to it, stopping at
the first id greater than it (the `elif existing_id > next_id: break`). -/
def nextIdLoop : List Int → Int → Int
  | [], n => n
  | x :: xs, n =>
    if x = n then nextIdLoop xs (n + 1)
    else if n < x then n
    else nextIdLoop xs n

/-- The integer value computed by `get_next_consecutive_id` before `str()`:
parse every key with `int()` (skipping failures), sort, scan from 0. -/
def pyNextIdInt (keys : List String) : Int :=
  nextIdLoop (List.insertionSort (fun a b => a ≤ b) (keys.filterMap pyParseInt)) 0

/-- `get_next_consecutive_id(links)` from src/main.py lines 131-151, as a
function of the store's key list. -/
def get_next_consecutive_id (keys : List String) : String :=
  pyStrInt (pyNextIdInt keys)

/-! ### Filename sanitization (src/main.py lines 367-390)

The post-processing applied to every resolved filename:
`re.sub(r'[<>:"/\\|?*]', '_', ...)`, then removal of the control characters
`[\x00-\x1f\x7f-\x9f]`, then `filename.replace('..', '_')`, then length
truncation via `os.path.splitext`, then the empty / leading-dot fixup. -/

/-- The characters `< > : " / \ | ? *` replaced by `_`
(code points 60, 62, 58, 34, 47, 92, 124, 63, 42). -/
def forbiddenChar (c : Char) : Bool :=
  c.toNat = 60 || c.toNat = 62 || c.toNat = 58 || c.toNat = 34 || c.toNat = 47 ||
    c.toNat = 92 || c.toNat = 124 || c.toNat = 63 || c.toNat = 42

/-- The control characters `\x00-\x1f` and `\x7f-\x9f`, removed outright. -/
def ctrlChar (c : Char) : Bool :=
  c.toNat ≤ 31 || (127 ≤ c.toNat && c.toNat ≤ 159)

/-- `re.sub(r'[<>:"/\\|?*]', '_', filename)`. -/
def replaceForbidden (l : List Char) : List Char :=
  l.map (fun c => if forbiddenChar c then '_' else c)

/-- `re.sub(r'[\x00-\x1f\x7f-\x9f]', '', filename)`. -/
def removeCtrl (l : List Char) : List Char := l.filter (fun c => !ctrlChar c)

/-- `filename.replace('..', '_')`: left-to-right, non-overlapping. -/
def replaceDotDot : List Char → List Char
  | [] => []
  | [c] => [c]
  | c :: d :: rest =>
    if c = '.' ∧ d = '.' then '_' :: replaceDotDot rest
    else c :: replaceDotDot (d :: rest)

/-- Whether the string contains the substring `..`. -/
def hasDotDot : List Char → Bool
  | [] => false
  | [_] => false
  | c :: d :: rest => (decide (c = '.') && decide (d = '.')) || hasDotDot (d :: rest)

/-- Python `str.rfind(c)`: index of the last occurrence, `-1` if absent. -/
def pyRFind (c : Char) (l : List Char) : Int :=
  match l.reverse.findIdx? (fun d => d = c) with
  | none => -1
  | some j => ((l.length - 1 - j : Nat) : Int)

/-- `os.path.splitext` (posix): split at the last `.` of the basename unless
every character of the basename before it is a `.`. -/
def pySplitext (l : List Char) : List Char × List Char :=
  let sepIdx := pyRFind '/' l
  let dotIdx := pyRFind '.' l
  if sepIdx < dotIdx then
    let d := dotIdx.toNat
    let base := (l.drop (sepIdx + 1).toNat).take (d - (sepIdx + 1).toNat)
    if base.any (fun c => c ≠ '.') then (l.take d, l.drop d) else (l, [])
  else (l, [])

/-- The three character-level replacements of src/main.py lines 371-373. -/
def cleanChars (l : List Char) : List Char :=
  replaceDotDot (removeCtrl (replaceForbidden l))

/-- The length cap of src/main.py lines 376-378: over 100 characters, keep
the first 90 characters of the stem plus the extension. -/
def truncate100 (l : List Char) : List Char :=
  if 100 < l.length then (pySplitext l).1.take 90 ++ (pySplitext l).2 else l

/-- The empty / leading-dot fixup of src/main.py lines 381-382. -/
def finalFixup (l : List Char) : List Char :=
  if l = [] then "file.bin".data
  else if l.head? = some '.' then "file".data ++ l
  else l

/-- The filename post-processing of src/main.py lines 367-382. -/
def sanitizeList (l : List Char) : List Char :=
  finalFixup (truncate100 (cleanChars l))

/-- String wrapper around `sanitizeList`. -/
def sanitizeFilename (s : String) : String := ⟨sanitizeList s.data⟩

/-! ### Filename resolution (src/main.py lines 235-365)

`urlparse` / `parse_qs` are library boundaries: the resolver is modelled
over the parsed URL components the code reads (`path` and the query mapping).
`urllib.parse.unquote` is modelled for ASCII percent-escapes; multi-byte
UTF-8 escape sequences are outside this model. -/

/-- Lowercase an ASCII letter (model of `re.IGNORECASE` / `str.lower()`). -/
def asciiLower (c : Char) : Char :=
  if 65 ≤ c.toNat && c.toNat ≤ 90 then Char.ofNat (c.toNat + 32) else c

/-- Does `l` start with `pat`? -/
def listStartsWith : List Char → List Char → Bool
  | _, [] => true
  | [], _ :: _ => false
  | c :: cs, p :: ps => c = p && listStartsWith cs ps

/-- Python's `pat in s` substring test. -/
def containsSub : List Char → List Char → Bool
  | [], pat => listStartsWith [] pat
  | c :: rest, pat => listStartsWith (c :: rest) pat || containsSub rest pat

/-- ASCII hexadecimal digit. -/
def isHexDigit (c : Char) : Bool :=
  (48 ≤ c.toNat && c.toNat ≤ 57) || (65 ≤ c.toNat && c.toNat ≤ 70) ||
    (97 ≤ c.toNat && c.toNat ≤ 102)

/-- Value of an ASCII hexadecimal digit. -/
def hexVal (c : Char) : Nat :=
  if c.toNat ≤ 57 then c.toNat - 48
  else if c.toNat ≤ 70 then c.toNat - 55
  else c.toNat - 87

/-- `urllib.parse.unquote`, modelled for ASCII escapes: `%XX` with a value
below 128 decodes to that character; other text passes through. -/
def pyUnquoteList : List Char → List Char
  | '%' :: h1 :: h2 :: rest =>
    if isHexDigit h1 && isHexDigit h2 && decide (hexVal h1 * 16 + hexVal h2 < 128) then
      Char.ofNat (hexVal h1 * 16 + hexVal h2) :: pyUnquoteList rest
    else '%' :: pyUnquoteList (h1 :: h2 :: rest)
  | c :: rest => c :: pyUnquoteList rest
  | [] => []

/-- Strip characters satisfying `p` from both ends (`str.strip(chars)`). -/
def stripChars (p : Char → Bool) (l : List Char) : List Char :=
  ((l.dropWhile p).reverse.dropWhile p).reverse

/-- The quote characters stripped by `.strip('\'"')`: `"` and the apostrophe
(code point 39). -/
def isQuoteChar (c : Char) : Bool := c.toNat = 34 || c.toNat = 39

/-- The apostrophe character (code point 39). -/
def apos : Char := Char.ofNat 39

/-- The literal `filename*=utf-8''` matched case-insensitively by the first
two Content-Disposition patterns (RFC 5987 extended form). -/
def extFormLiteral : List Char := "filename*=utf-8".data ++ [apos, apos]

/-- `re.search(r"filename\*=UTF-8''(.+)", cd, re.IGNORECASE)`: leftmost
occurrence of the literal followed by a greedy non-newline capture. -/
def searchExtForm : List Char → Option (List Char)
  | [] => none
  | c :: rest =>
    if listStartsWith ((c :: rest).map asciiLower) extFormLiteral then
      let cap := ((c :: rest).drop 17).takeWhile (fun d => d ≠ '\n')
      if cap = [] then searchExtForm rest else some cap
    else searchExtForm rest

/-- `re.search(r'filename="([^"]+)"', cd, re.IGNORECASE)`. -/
def searchQuotedForm : List Char → Option (List Char)
  | [] => none
  | c :: rest =>
    if listStartsWith ((c :: rest).map asciiLower) ("filename=".data ++ ['"']) then
      let after := (c :: rest).drop 10
      let cap := after.takeWhile (fun d => d ≠ '"')
      if cap ≠ [] && (after.drop cap.length).head? = some '"' then some cap
      else searchQuotedForm rest
    else searchQuotedForm rest

/-- Characters ending the unquoted form's capture: `[^;,\s]` (ASCII model of
`\s`). -/
def isBareStop (c : Char) : Bool := c.toNat = 59 || c.toNat = 44 || isPyWs c

/-- `re.search(r'filename=([^;,\s]+)', cd, re.IGNORECASE)`. -/
def searchBareForm : List Char → Option (List Char)
  | [] => none
  | c :: rest =>
    if listStartsWith ((c :: rest).map asciiLower) "filename=".data then
      let cap := ((c :: rest).drop 9).takeWhile (fun d => !isBareStop d)
      if cap = [] then searchBareForm rest else some cap
    else searchBareForm rest

/-- `urllib.parse.unquote(match.group(1).strip()).strip('\'"')`, kept only if
non-empty (src/main.py lines 253-256). -/
def processMatch (cap : List Char) : Option (List Char) :=
  let e := stripChars isQuoteChar (pyUnquoteList (stripChars isPyWs cap))
  if e = [] then none else some e

/-- The pattern loop of src/main.py lines 243-259: extended form, quoted
form, bare form, first non-empty processed match wins. -/
def tryPatterns (cd : List Char) : Option (List Char) :=
  match (searchExtForm cd).bind processMatch with
  | some f => some f
  | none =>
    match (searchQuotedForm cd).bind processMatch with
    | some f => some f
    | none => (searchBareForm cd).bind processMatch

/-- The Content-Disposition branch, including the enclosing guard
`if 'filename=' in content_disposition:` (src/main.py line 241). -/
def cdFilename (cd : List Char) : Option (List Char) :=
  if containsSub cd "filename=".data then tryPatterns cd else none

/-- The components of `urlparse(url)` that the resolver reads, plus the
`parse_qs` view of the query string. -/
structure ParsedUrl where
  path : String
  query : List (String × List String)

/-- Association lookup in the `parse_qs` result. -/
def qGet : List (String × List String) → String → Option (List String)
  | [], _ => none
  | (k, v) :: rest, p => if k = p then some v else qGet rest p

/-- The URL-path branch (src/main.py lines 262-272): percent-decode the path,
strip `/` from both ends, split on `/`, and take the last non-empty part
containing a dot. -/
def urlPathFilename (path : String) : Option (List Char) :=
  let urlPath := pyUnquoteList path.data
  if urlPath ≠ [] ∧ urlPath ≠ ['/'] then
    let parts := (stripChars (fun c => c = '/') urlPath).splitOn '/'
    parts.reverse.find? (fun part => !part.isEmpty && part.contains '.')
  else none

/-- The query-parameter branch (src/main.py lines 275-288). -/
def queryFilenameGo (q : List (String × List String)) : List String → Option (List Char)
  | [] => none
  | p :: ps =>
    match qGet q p with
    | some (v :: _) =>
      if 2 < v.length then some (pyUnquoteList v.data) else queryFilenameGo q ps
    | some [] => queryFilenameGo q ps
    | none => queryFilenameGo q ps

/-- The fixed candidate parameter list of src/main.py line 281. -/
def queryFilename (q : List (String × List String)) : Option (List Char) :=
  queryFilenameGo q ["filename", "name", "file", "title", "download", "f"]

/-- `re.sub(r'\.[^.]+$', '', last_part)`: drop a final extension (a last dot
followed by at least one non-dot character at the end). -/
def stripLastExt (l : List Char) : List Char :=
  match pyRFind '.' l with
  | Int.negSucc _ => l
  | Int.ofNat i => if i + 1 < l.length then l.take i else l

/-- `str.isdigit()` (ASCII model). -/
def pyIsDigit (l : List Char) : Bool := !l.isEmpty && l.all isPyDigit

/-- The content-type-to-extension table of src/main.py lines 313-334. -/
def contentTypeExtensions : List (String × String) :=
  [("video/mp4", ".mp4"), ("video/webm", ".webm"), ("video/avi", ".avi"),
   ("video/quicktime", ".mov"), ("audio/mpeg", ".mp3"), ("audio/mp3", ".mp3"),
   ("audio/wav", ".wav"), ("audio/ogg", ".ogg"), ("image/jpeg", ".jpg"),
   ("image/jpg", ".jpg"), ("image/png", ".png"), ("image/gif", ".gif"),
   ("image/webp", ".webp"), ("application/pdf", ".pdf"),
   ("application/zip", ".zip"), ("application/x-rar-compressed", ".rar"),
   ("text/plain", ".txt"), ("application/json", ".json"),
   ("application/xml", ".xml"), ("text/html", ".html")]

/-- Exact lookup in the extension table (`dict.get(ctl, '')`). -/
def extTableGet : List (String × String) → String → String
  | [], _ => ""
  | (k, v) :: rest, ct => if k = ct then v else extTableGet rest ct

/-- The fallback synthesis of src/main.py lines 291-364: base name from the
last non-numeric path part, extension from the content type. -/
def fallbackFilename (u : ParsedUrl) (contentType : List Char) : List Char :=
  let ctLower : String := ⟨contentType.map asciiLower⟩
  let baseName :=
    if u.path ≠ "" ∧ u.path ≠ "/" then
      let pathParts := (u.path.data.splitOn '/').filter
        (fun p => !p.isEmpty && !pyIsDigit p)
      match pathParts.getLast? with
      | some lastPart =>
        let b := (stripLastExt lastPart).take 20
        if b.length < 2 then "file".data else b
      | none => "file".data
    else "file".data
  let exact := extTableGet contentTypeExtensions ctLower
  let extension :=
    if exact ≠ "" then exact.data
    else if containsSub ctLower.data "video".data then ".mp4".data
    else if containsSub ctLower.data "audio".data then ".mp3".data
    else if containsSub ctLower.data "image".data then ".jpg".data
    else if containsSub ctLower.data "pdf".data then ".pdf".data
    else if containsSub ctLower.data "zip".data then ".zip".data
    else if containsSub ctLower.data "text".data then ".txt".data
    else if u.path ≠ "" then
      let urlExt := (pySplitext u.path.data).2
      if urlExt ≠ [] ∧ urlExt.length ≤ 5 then urlExt else ".bin".data
    else ".bin".data
  baseName ++ extension

/-- The filename-resolution chain of src/main.py lines 236-365:
Content-Disposition, then URL path, then query parameters, then the
synthesized fallback. -/
def chooseFilename (cd : List Char) (u : ParsedUrl) (ct : List Char) : List Char :=
  match cdFilename cd with
  | some f => f
  | none =>
    match urlPathFilename u.path with
    | some f => f
    | none =>
      match queryFilename u.query with
      | some f => f
      | none => fallbackFilename u ct

/-- The full resolver: choose a filename, then the cleaning block of lines
367-390 (the `else` branch producing `"file.bin"` mirrors line 389). -/
def resolveFilename (cd : List Char) (u : ParsedUrl) (ct : List Char) : List Char :=
  let f := chooseFilename cd u ct
  if f = [] then "file.bin".data else sanitizeList f

/-- A character is acceptable in a sanitized filename. -/
def goodChar (c : Char) : Prop := forbiddenChar c = false ∧ ctrlChar c = false

/-- C9 counterexample input: 89 `a`s, a dot, 20 `x`s, then `.ext`
(114 characters).  It passes the replacements of lines 371-373 unchanged
(no forbidden characters, no control characters, no `..`), then the length
cap of lines 376-378 splits it into a 110-character stem
(`89 a's + '.' + 20 x's`) and the 11th-from-last-character extension
`.ext`; `name[:90]` cuts the stem right after its dot, so the sanitizer
output is `89 a's + "..ext"` — an output of the post-processing that
contains `..` and that line 373 of a second pass rewrites to
`89 a's + "_ext"`. -/
def c9input : List Char :=
  List.replicate 89 'a' ++ ('.' :: List.replicate 20 'x') ++ ".ext".data

/-- The first sanitization of `c9input`: 89 `a`s followed by `..ext`. -/
def c9once : List Char := List.replicate 89 'a' ++ "..ext".data

/-- The second sanitization of `c9input`: 89 `a`s followed by `_ext`. -/
def c9twice : List Char := List.replicate 89 'a' ++ "_ext".data

/-- C3 counterexample input: a Content-Disposition header carrying a quoted
filename of 111 characters whose extension is 11 characters long. -/
def c3name : List Char :=
  List.replicate 89 'a' ++ ('.' :: List.replicate 10 'b') ++
    ('.' :: List.replicate 10 'c')

/-- The Content-Disposition header carrying `c3name` in quoted form. -/
def c3cd : List Char := "attachment; filename=".data ++ ('"' :: c3name) ++ ['"']

/-- The resolver output on the C3 counterexample input. -/
def c3out : List Char := resolveFilename c3cd ⟨"/x", []⟩ "application/pdf".data

/-! ### Remote asset publisher (src/main.py lines 153-214, 452-456) -/

/-- A release payload returned by the remote API (`id`, `html_url`). -/
structure GhRelease where
  rid : Nat
  htmlUrl : String
  deriving DecidableEq

/-- An asset payload returned by the upload endpoint
(`id`, `browser_download_url`). -/
structure GhAsset where
  aid : Nat
  browserDownloadUrl : String
  deriving DecidableEq

/-- A response of the release-creation endpoint. -/
structure GhApiResponse where
  status : Nat
  release : GhRelease
  deriving DecidableEq

/-- `create_github_release` (src/main.py lines 153-180): posts the tag and
name once; any status other than 201 raises
`GitHub API failed: API error: <status>`.  `responder` models the remote
service (response as a function of the posted tag); the second component
records every `(tag, name)` pair actually posted, in order. -/
def create_github_release (responder : String → GhApiResponse)
    (tagName nm : String) : Except String GhRelease × List (String × String) :=
  let resp := responder tagName
  if resp.status = 201 then (Except.ok resp.release, [(tagName, nm)])
  else
    (Except.error ("GitHub API failed: API error: " ++ pyStrNat resp.status),
      [(tagName, nm)])

/-! ### Transfer pipeline (src/main.py lines 216-450) -/

/-- What the pipeline observes of the outside world during one run:
the fetch outcome and response headers, the body chunks served by
`iter_content` (by size), and the remote API's behaviour. -/
structure RemoteEnv where
  /-- does `response.raise_for_status()` pass? -/
  fetchOk : Bool
  /-- `str()` of the raised error when it does not -/
  fetchErr : String
  /-- the `content-disposition` response header (empty when absent) -/
  contentDisposition : List Char
  /-- the parsed source URL -/
  url : ParsedUrl
  /-- the `content-type` response header, when present -/
  contentTypeHdr : Option (List Char)
  /-- sizes of the chunks served by `response.iter_content` -/
  chunkSizes : List Nat
  /-- the release endpoint's response, as a function of the posted tag -/
  createResp : String → GhApiResponse
  /-- status of the asset upload request -/
  uploadStatus : Nat
  /-- asset payload returned on a 201 upload -/
  uploadAsset : GhAsset
  /-- outcome of the best-effort DELETE issued during cleanup -/
  deleteOk : Bool

/-- A remote call made by the pipeline, in order. -/
inductive RemoteAction where
  | fetch
  | createRelease (tag : String) (nm : String)
  | uploadAsset (releaseId : Nat) (filename : List Char) (size : Nat)
  | deleteRelease (releaseId : Nat)
  deriving DecidableEq

/-- The dictionary assembled at src/main.py lines 432-440. -/
structure FileInfo where
  filename : List Char
  contentType : List Char
  fileSize : Nat
  githubReleaseId : Nat
  githubAssetId : Nat
  downloadUrl : String
  releaseUrl : String
  deriving DecidableEq

/-- `download_and_upload_to_github` (src/main.py lines 216-450): fetch,
resolve the filename, create the release (tag `f<file_id><time>`), download
all chunks, upload, and on an upload failure attempt `delete_github_release`
(its outcome `deleteOk` is swallowed) before re-raising.  Every error is
wrapped as `Processing failed: ...` by the outer handler.  Returns the
result and the remote calls made. -/
def download_and_upload_to_github (env : RemoteEnv) (fileId : String)
    (now : Nat) : Except String FileInfo × List RemoteAction :=
  if env.fetchOk = false then
    (Except.error ("Processing failed: " ++ env.fetchErr), [RemoteAction.fetch])
  else
    let contentType := env.contentTypeHdr.getD "application/octet-stream".data
    let filename := resolveFilename env.contentDisposition env.url contentType
    let tagName := "f" ++ fileId ++ pyStrNat now
    let releaseName := "File-" ++ String.mk (filename.take 30)
    let fileSize := env.chunkSizes.sum
    match (create_github_release env.createResp tagName releaseName).1 with
    | Except.error e =>
      (Except.error ("Processing failed: " ++ e),
        [RemoteAction.fetch, RemoteAction.createRelease tagName releaseName])
    | Except.ok rel =>
      if env.uploadStatus = 201 then
        (Except.ok
          { filename := filename, contentType := contentType,
            fileSize := fileSize, githubReleaseId := rel.rid,
            githubAssetId := env.uploadAsset.aid,
            downloadUrl := env.uploadAsset.browserDownloadUrl,
            releaseUrl := rel.htmlUrl },
          [RemoteAction.fetch, RemoteAction.createRelease tagName releaseName,
            RemoteAction.uploadAsset rel.rid filename fileSize])
      else
        (Except.error ("Processing failed: GitHub upload failed: Upload error: "
            ++ pyStrNat env.uploadStatus),
          [RemoteAction.fetch, RemoteAction.createRelease tagName releaseName,
            RemoteAction.uploadAsset rel.rid filename fileSize,
            RemoteAction.deleteRelease rel.rid])

/-! ### Link store and HTTP façade (src/main.py lines 100-129, 462-557) -/

/-- The link store as loaded: a Python dict from link id to record. -/
abbrev Links := List (String × PyJson)

/-- The reply of the `/create` endpoint. -/
inductive CreateResp where
  | ok (linkId : String) (filename : List Char) (fileSize : Nat)
      (downloadUrl : String)
  | badRequest (msg : String)
  | serverError (msg : String)
  deriving DecidableEq

/-- `create_permanent_link` (src/main.py lines 462-533) over an already
loaded store.  `customName` is the form field after `.strip()`; `configOk`
models `all([GITHUB_TOKEN, GITHUB_OWNER, GITHUB_REPO])`; `nowIso` is
`datetime.now().isoformat()`.  The middle component lists the stores passed
to `save_links`, the last the remote calls made. -/
def create_permanent_link (tempUrl : Option String) (customName : String)
    (configOk : Bool) (links : Links) (env : RemoteEnv) (now : Nat)
    (nowIso : String) : CreateResp × List Links × List RemoteAction :=
  match tempUrl with
  | none => (CreateResp.badRequest "No URL provided", [], [])
  | some u =>
    if u = "" then (CreateResp.badRequest "No URL provided", [], [])
    else if configOk = false then
      (CreateResp.serverError "GitHub configuration missing. Please set GITHUB_TOKEN, GITHUB_OWNER, and GITHUB_REPO environment variables.",
        [], [])
    else
      let linkId :=
        if customName ≠ "" then customName
        else get_next_consecutive_id (links.map Prod.fst)
      if customName ≠ "" ∧ (assocGet links linkId).isSome then
        (CreateResp.badRequest "Custom name already exists", [], [])
      else
        match download_and_upload_to_github env linkId now with
        | (Except.error e, acts) =>
          (CreateResp.serverError ("Server error: " ++ e), [], acts)
        | (Except.ok fi, acts) =>
          let record := PyJson.dict
            [("original_url", PyJson.str u),
             ("created_at", PyJson.str nowIso),
             ("access_count", PyJson.num 0),
             ("file_info", PyJson.dict
               [("filename", PyJson.str (String.mk fi.filename)),
                ("content_type", PyJson.str (String.mk fi.contentType)),
                ("file_size", PyJson.num (fi.fileSize : Int)),
                ("github_release_id", PyJson.num (fi.githubReleaseId : Int)),
                ("github_asset_id", PyJson.num (fi.githubAssetId : Int)),
                ("download_url", PyJson.str fi.downloadUrl),
                ("release_url", PyJson.str fi.releaseUrl)])]
          (CreateResp.ok linkId fi.filename fi.fileSize fi.downloadUrl,
            [assocSet links linkId record], acts)

/-- The state of the `links.json` backing file as seen by `load_links`:
`missing` models `os.path.exists` returning false, `badJson` a
`json.JSONDecodeError` from `json.load`, `unreadable` any other read error,
and `parsed v` a successful parse. -/
inductive StoreFile where
  | missing
  | unreadable
  | badJson
  | parsed (v : PyJson)

/-- A file-system action attempted by `load_links`. -/
inductive LoadAction where
  | renameBackup (backupName : String)
  deriving DecidableEq

/-- `load_links` (src/main.py lines 100-124): missing file, non-dict data and
unreadable files give an empty dict; invalid JSON also renames the file to
`links.json.backup.<timestamp>` (the rename itself is best-effort).  `ts` is
`int(datetime.now().timestamp())`. -/
def load_links (st : StoreFile) (ts : Nat) : Links × List LoadAction :=
  match st with
  | StoreFile.missing => ([], [])
  | StoreFile.unreadable => ([], [])
  | StoreFile.badJson =>
    ([], [LoadAction.renameBackup ("links.json.backup." ++ pyStrNat ts)])
  | StoreFile.parsed v =>
    match v with
    | PyJson.dict d => (d, [])
    | _ => ([], [])

/-- The reply of the `/download/<link_id>` endpoint.  `pyError` models an
exception escaping the handler (no `try` protects the counter update). -/
inductive DlResp where
  | notFound
  | redirect (url : String)
  | err500 (msg : String)
  | pyError (msg : String)
  deriving DecidableEq

/-- `download_file` (src/main.py lines 535-557) over an already loaded
store: unknown ids give 404; otherwise `access_count` is incremented and
saved, then the redirect URL is read inside a `try` whose failures become a
500 reply.  The second component lists the stores passed to `save_links`. -/
def download_file (linkId : String) (links : Links) : DlResp × List Links :=
  match assocGet links linkId with
  | none => (DlResp.notFound, [])
  | some record =>
    match record with
    | PyJson.dict entries =>
      match assocGet entries "access_count" with
      | some (PyJson.num n) =>
        let newLinks := assocSet links linkId
          (PyJson.dict (assocSet entries "access_count" (PyJson.num (n + 1))))
        let resp :=
          match assocGet entries "file_info" with
          | some (PyJson.dict fi) =>
            match assocGet fi "download_url" with
            | some (PyJson.str u) => DlResp.redirect u
            | some _ => DlResp.err500 "Error accessing file"
            | none => DlResp.err500 "Error accessing file"
          | some _ => DlResp.err500 "Error accessing file"
          | none => DlResp.err500 "Error accessing file"
        (resp, [newLinks])
      | some _ => (DlResp.pyError "unsupported operand type for +=", [])
      | none => (DlResp.pyError "KeyError: access_count", [])
    | _ => (DlResp.pyError "record is not subscriptable", [])

/-! ### Pipeline lemmas and the remaining claims -/

/-- The resolved filename inside one pipeline run. -/
def envFilename (env : RemoteEnv) : List Char :=
  resolveFilename env.contentDisposition env.url
    (env.contentTypeHdr.getD "application/octet-stream".data)

/-- The tag posted by one pipeline run. -/
def envTag (fileId : String) (now : Nat) : String := "f" ++ fileId ++ pyStrNat now

/-- Witness environment for the upload-failure claims: release creation
succeeds with id 77, the upload fails with 404. -/
def c1env : RemoteEnv :=
  { fetchOk := true, fetchErr := "boom", contentDisposition := [],
    url := ⟨"/files/video.mp4", []⟩, contentTypeHdr := some "video/mp4".data,
    chunkSizes := [5, 7],
    createResp := fun _ => ⟨201, ⟨77, "https://api.example/rel/77"⟩⟩,
    uploadStatus := 404, uploadAsset := ⟨0, ""⟩, deleteOk := false }

/-- Counterexample environment for C4: one body chunk of `2^31 + 1` bytes. -/
def c4env : RemoteEnv :=
  { fetchOk := true, fetchErr := "", contentDisposition := [],
    url := ⟨"/v.mp4", []⟩, contentTypeHdr := some "video/mp4".data,
    chunkSizes := [2 ^ 31 + 1],
    createResp := fun _ => ⟨201, ⟨77, "https://api.example/rel/77"⟩⟩,
    uploadStatus := 201, uploadAsset := ⟨88, "https://dl.example/a/v.mp4"⟩,
    deleteOk := true }

/-- A Content-Disposition header carrying only the RFC 5987 extended form:
`attachment; filename*=UTF-8''report.pdf`. -/
def c6cd : List Char :=
  "attachment; filename*=UTF-8".data ++ [apos, apos] ++ "report.pdf".data

/-- A well-formed stored record with `access_count = 4`. -/
def c8inner : List (String × PyJson) :=
  [("original_url", PyJson.str "http://tmp/x"),
   ("created_at", PyJson.str "2026-01-01T00:00:00"),
   ("access_count", PyJson.num 4),
   ("file_info", PyJson.dict [("download_url", PyJson.str "https://dl.example/a.bin")])]

/-- A store holding `c8inner` under id `"7"`. -/
def c8store : Links := [("7", PyJson.dict c8inner)]

/-- A store whose only record has no `file_info` at all. -/
def c10store : Links := [("0", PyJson.dict [("access_count", PyJson.num 0)])]

/-! ## Theorems -/

theorem natDigitsRevAux_fuel (n : Nat) :
    ∀ f1 f2 : Nat, n < f1 → n < f2 →
      natDigitsRevAux f1 n = natDigitsRevAux f2 n := by
  induction n using Nat.strong_induction_on with
  | _ n ih =>
    intro f1 f2 h1 h2
    obtain ⟨g1, rfl⟩ : ∃ g, f1 = g + 1 := ⟨f1 - 1, by omega⟩
    obtain ⟨g2, rfl⟩ : ∃ g, f2 = g + 1 := ⟨f2 - 1, by omega⟩
    simp only [natDigitsRevAux]
    split
    · rfl
    · next h =>
      have hdiv : n / 10 < n := Nat.div_lt_self (by omega) (by omega)
      rw [ih (n / 10) hdiv g1 g2 (by omega) (by omega)]

/-- The recurrence satisfied by `natDigitsRev`. -/
theorem natDigitsRev_eq (n : Nat) :
    natDigitsRev n =
      if n < 10 then [digitChar n]
      else digitChar (n % 10) :: natDigitsRev (n / 10) := by
  show natDigitsRevAux (n + 1) n = _
  simp only [natDigitsRevAux]
  split
  · rfl
  · next h =>
    have hdiv : n / 10 < n := Nat.div_lt_self (by omega) (by omega)
    rw [natDigitsRevAux_fuel (n / 10) n (n / 10 + 1) (by omega) (by omega)]
    rfl

/-! ### Lemmas about the id scan -/

theorem nextIdLoop_ge (l : List Int) (n : Int) : n ≤ nextIdLoop l n := by
  induction l generalizing n with
  | nil => simp [nextIdLoop]
  | cons x xs ih =>
    simp only [nextIdLoop]
    split
    · exact le_trans (by omega) (ih (n + 1))
    · split
      · exact le_refl n
      · exact ih n

theorem nextIdLoop_spec (l : List Int) (n : Int)
    (hs : l.Sorted (fun a b => a ≤ b)) :
    nextIdLoop l n ∉ l ∧ ∀ m : Int, n ≤ m → m < nextIdLoop l n → m ∈ l := by
  induction l generalizing n with
  | nil => simp [nextIdLoop]
  | cons x xs ih =>
    have hx : ∀ y ∈ xs, x ≤ y := (List.sorted_cons.mp hs).1
    have hs' : xs.Sorted (fun a b => a ≤ b) := (List.sorted_cons.mp hs).2
    simp only [nextIdLoop]
    split
    · next hxe =>
      subst hxe
      obtain ⟨h1, h2⟩ := ih (x + 1) hs'
      have hge : x + 1 ≤ nextIdLoop xs (x + 1) := nextIdLoop_ge xs (x + 1)
      constructor
      · intro hmem
        rcases List.mem_cons.mp hmem with h | h
        · omega
        · exact h1 h
      · intro m hm1 hm2
        rcases eq_or_lt_of_le hm1 with h | h
        · exact List.mem_cons.mpr (Or.inl h.symm)
        · exact List.mem_cons.mpr (Or.inr (h2 m (by omega) hm2))
    · next hxe =>
      split
      · next hlt =>
        constructor
        · intro hmem
          rcases List.mem_cons.mp hmem with h | h
          · omega
          · have := hx n h
            omega
        · intro m hm1 hm2
          omega
      · next hlt =>
        have hxn : x < n := by omega
        obtain ⟨h1, h2⟩ := ih n hs'
        have hge : n ≤ nextIdLoop xs n := nextIdLoop_ge xs n
        constructor
        · intro hmem
          rcases List.mem_cons.mp hmem with h | h
          · omega
          · exact h1 h
        · intro m hm1 hm2
          exact List.mem_cons.mpr (Or.inr (h2 m hm1 hm2))

theorem pyNextIdInt_nonneg (keys : List String) : 0 ≤ pyNextIdInt keys :=
  nextIdLoop_ge _ 0

/-- The allocated integer is absent from the parsed key values, and every
smaller non-negative integer is present. -/
theorem pyNextIdInt_least (keys : List String) :
    (pyNextIdInt keys ∉ keys.filterMap pyParseInt) ∧
      ∀ m : Int, 0 ≤ m → m < pyNextIdInt keys → m ∈ keys.filterMap pyParseInt := by
  have hsorted :
      (List.insertionSort (fun a b => a ≤ b) (keys.filterMap pyParseInt)).Sorted
        (fun a b => a ≤ b) :=
    List.sorted_insertionSort _ _
  have hperm := List.perm_insertionSort (fun a b : Int => a ≤ b) (keys.filterMap pyParseInt)
  obtain ⟨h1, h2⟩ := nextIdLoop_spec _ 0 hsorted
  refine ⟨fun hmem => h1 (hperm.mem_iff.mpr hmem), fun m hm1 hm2 => ?_⟩
  exact hperm.mem_iff.mp (h2 m hm1 hm2)

/-! ### Round trip: `int(str(n)) = n` -/

theorem digitChar_spec {d : Nat} (hd : d < 10) :
    isPyDigit (digitChar d) = true ∧ digitVal (digitChar d) = d := by
  interval_cases d <;> exact ⟨by decide, by decide⟩

theorem natDigitsRev_all_digits (n : Nat) :
    ∀ c ∈ natDigitsRev n, isPyDigit c = true := by
  induction n using Nat.strong_induction_on with
  | _ n ih =>
    rw [natDigitsRev_eq]
    split
    · next h =>
      intro c hc
      rw [List.mem_singleton] at hc
      subst hc
      exact (digitChar_spec h).1
    · next h =>
      intro c hc
      rcases List.mem_cons.mp hc with hc | hc
      · subst hc
        exact (digitChar_spec (Nat.mod_lt n (by omega))).1
      · exact ih (n / 10) (Nat.div_lt_self (by omega) (by omega)) c hc

theorem natDigitsRev_ne_nil (n : Nat) : natDigitsRev n ≠ [] := by
  rw [natDigitsRev_eq]
  split <;> simp

theorem natDigitsRev_foldl (n : Nat) :
    ∀ acc : Nat,
      (natDigitsRev n).reverse.foldl (fun a c => a * 10 + digitVal c) acc =
        acc * 10 ^ (natDigitsRev n).length + n := by
  induction n using Nat.strong_induction_on with
  | _ n ih =>
    intro acc
    rw [natDigitsRev_eq]
    split
    · next h =>
      simp [List.foldl, (digitChar_spec h).2]
    · next h =>
      have hrec := ih (n / 10) (Nat.div_lt_self (by omega) (by omega))
      simp only [List.reverse_cons, List.foldl_append, List.foldl_cons, List.foldl_nil,
        List.length_cons]
      rw [hrec acc, (digitChar_spec (Nat.mod_lt n (by omega))).2]
      have : (acc * 10 ^ (natDigitsRev (n / 10)).length + n / 10) * 10 + n % 10 =
          acc * (10 ^ (natDigitsRev (n / 10)).length * 10) + (n / 10 * 10 + n % 10) := by
        ring
      rw [this, Nat.div_add_mod', pow_succ]

theorem parseDigitsCore_all_digits (l : List Char) :
    ∀ acc : Nat, (∀ c ∈ l, isPyDigit c = true) →
      parseDigitsCore l acc true =
        some (l.foldl (fun a c => a * 10 + digitVal c) acc) := by
  induction l with
  | nil => intro acc _; rfl
  | cons c rest ih =>
    intro acc hall
    have hc : isPyDigit c = true := hall c (List.mem_cons_self c rest)
    simp only [parseDigitsCore, hc, if_true, List.foldl_cons]
    exact ih _ (fun d hd => hall d (List.mem_cons.mpr (Or.inr hd)))

theorem digitsToNat_all_digits (c : Char) (rest : List Char)
    (hall : ∀ d ∈ c :: rest, isPyDigit d = true) :
    digitsToNat (c :: rest) =
      some ((c :: rest).foldl (fun a c => a * 10 + digitVal c) 0) := by
  have hc : isPyDigit c = true := hall c (List.mem_cons_self c rest)
  simp only [digitsToNat, parseDigitsCore, hc, if_true, List.foldl_cons]
  exact parseDigitsCore_all_digits rest _ (fun d hd => hall d (List.mem_cons.mpr (Or.inr hd)))

theorem digit_not_ws {c : Char} (h : isPyDigit c = true) : isPyWs c = false := by
  simp only [isPyDigit, Bool.and_eq_true, decide_eq_true_eq] at h
  simp only [isPyWs, Bool.or_eq_false_iff, decide_eq_false_iff_not]
  omega

theorem dropWhile_eq_self_of_none {p : Char → Bool} {l : List Char}
    (h : ∀ c ∈ l, p c = false) : l.dropWhile p = l := by
  cases l with
  | nil => rfl
  | cons a as =>
    simp only [List.dropWhile]
    rw [h a (List.mem_cons_self a as)]

theorem pyStrip_all_digits {l : List Char} (h : ∀ c ∈ l, isPyDigit c = true) :
    pyStrip l = l := by
  unfold pyStrip
  rw [dropWhile_eq_self_of_none (fun c hc => digit_not_ws (h c hc)),
    dropWhile_eq_self_of_none (fun c hc => digit_not_ws (h c (List.mem_reverse.mp hc))),
    List.reverse_reverse]

/-- Parsing the decimal string of `n` gives back `n`. -/
theorem pyParseInt_pyStrNat (n : Nat) : pyParseInt (pyStrNat n) = some (n : Int) := by
  have hall : ∀ c ∈ (natDigitsRev n).reverse, isPyDigit c = true :=
    fun c hc => natDigitsRev_all_digits n c (List.mem_reverse.mp hc)
  have hdata : (pyStrNat n).data = (natDigitsRev n).reverse := rfl
  obtain ⟨c, rest, hcr⟩ : ∃ c rest, (natDigitsRev n).reverse = c :: rest := by
    cases hrev : (natDigitsRev n).reverse with
    | nil =>
      exact absurd (List.reverse_eq_nil_iff.mp hrev) (natDigitsRev_ne_nil n)
    | cons c rest => exact ⟨c, rest, rfl⟩
  have hc : isPyDigit c = true := hall c (hcr ▸ List.mem_cons_self c rest)
  have hcplus : c ≠ '+' := by
    intro hcp
    subst hcp
    simp [isPyDigit] at hc
  have hcminus : c ≠ '-' := by
    intro hcp
    subst hcp
    simp [isPyDigit] at hc
  unfold pyParseInt
  rw [hdata, pyStrip_all_digits hall, hcr]
  simp only [pyParseIntCore, if_neg hcplus, if_neg hcminus,
    digitsToNat_all_digits c rest (hcr ▸ hall), Option.map_some]
  have hfold := natDigitsRev_foldl n 0
  rw [hcr] at hfold
  simp only [zero_mul, zero_add] at hfold
  rw [hfold]
  rfl

theorem mem_filterMap_of_parse {keys : List String} {k : String} {v : Int}
    (hk : k ∈ keys) (hv : pyParseInt k = some v) :
    v ∈ keys.filterMap pyParseInt :=
  List.mem_filterMap.mpr ⟨k, hk, hv⟩

/-- C2: for every key mapping, `get_next_consecutive_id` returns the decimal
string of the smallest non-negative integer that is not present among the
keys interpretable as integers (no key parses to the returned value, and
every smaller non-negative integer is the parse of some key); in particular
it never returns a key already present, and on keys `{"0","1","3"}` it
returns `"2"`. -/
theorem get_next_consecutive_id_spec :
    (∀ keys : List String,
      (∀ k ∈ keys, pyParseInt k ≠ some (pyNextIdInt keys)) ∧
      (∀ m : Int, 0 ≤ m → m < pyNextIdInt keys →
        ∃ k ∈ keys, pyParseInt k = some m) ∧
      get_next_consecutive_id keys ∉ keys ∧
      get_next_consecutive_id keys = pyStrNat (pyNextIdInt keys).toNat) ∧
    get_next_consecutive_id ["0", "1", "3"] = "2" := by
  constructor
  · intro keys
    have hnn := pyNextIdInt_nonneg keys
    have hleast := pyNextIdInt_least keys
    have habsent : ∀ k ∈ keys, pyParseInt k ≠ some (pyNextIdInt keys) := by
      intro k hk hp
      exact hleast.1 (mem_filterMap_of_parse hk hp)
    have hstr : get_next_consecutive_id keys = pyStrNat (pyNextIdInt keys).toNat := by
      unfold get_next_consecutive_id pyStrInt
      rw [if_neg (by omega)]
      congr 1
      omega
    refine ⟨habsent, ?_, ?_, hstr⟩
    · intro m hm1 hm2
      exact List.mem_filterMap.mp (hleast.2 m hm1 hm2)
    · intro hmem
      rw [hstr] at hmem
      have hparse : pyParseInt (pyStrNat (pyNextIdInt keys).toNat) =
          some (pyNextIdInt keys) := by
        rw [pyParseInt_pyStrNat, Int.toNat_of_nonneg hnn]
      exact habsent _ hmem hparse
  · decide

/-- Witness for C2: concrete instantiation on the store keys `["0","1","3"]`
(the allocated id `2` is the parse of no key, and the smaller value `1` is
present). -/
theorem get_next_consecutive_id_spec_witness :
    pyParseInt "0" ≠ some (pyNextIdInt ["0", "1", "3"]) ∧
      ∃ k ∈ (["0", "1", "3"] : List String), pyParseInt k = some 1 :=
  ⟨(get_next_consecutive_id_spec.1 ["0", "1", "3"]).1 "0" (by decide),
   (get_next_consecutive_id_spec.1 ["0", "1", "3"]).2.1 1 (by decide) (by decide)⟩

/-! ### Lemmas about the sanitization steps -/

/-- Induction principle matching the two-character look-ahead of
`replaceDotDot` and `hasDotDot`. -/
theorem twoStepInduction {P : List Char → Prop} (h0 : P []) (h1 : ∀ c, P [c])
    (h2 : ∀ c d rest, P rest → P (d :: rest) → P (c :: d :: rest)) :
    ∀ l : List Char, P l := by
  have key : ∀ n : Nat, ∀ l : List Char, l.length ≤ n → P l := by
    intro n
    induction n with
    | zero =>
      intro l hl
      rw [Nat.le_zero, List.length_eq_zero] at hl
      exact hl ▸ h0
    | succ n ih =>
      intro l hl
      match l with
      | [] => exact h0
      | [c] => exact h1 c
      | c :: d :: rest =>
        simp only [List.length_cons] at hl
        exact h2 c d rest (ih rest (by omega)) (ih (d :: rest) (by simp; omega))
  exact fun l => key l.length l le_rfl

theorem replaceForbidden_no_forbidden (l : List Char) :
    ∀ c ∈ replaceForbidden l, forbiddenChar c = false := by
  intro c hc
  simp only [replaceForbidden, List.mem_map] at hc
  obtain ⟨d, _, rfl⟩ := hc
  by_cases h : forbiddenChar d = true
  · rw [if_pos h]; decide
  · rw [if_neg h]; simpa using h

theorem replaceForbidden_eq_self {l : List Char}
    (h : ∀ c ∈ l, forbiddenChar c = false) : replaceForbidden l = l := by
  induction l with
  | nil => rfl
  | cons c rest ih =>
    simp only [replaceForbidden, List.map_cons]
    rw [if_neg (by simp [h c (List.mem_cons_self c rest)])]
    exact congrArg (c :: ·) (ih (fun d hd => h d (List.mem_cons.mpr (Or.inr hd))))

theorem replaceForbidden_length (l : List Char) :
    (replaceForbidden l).length = l.length := List.length_map l _

theorem removeCtrl_no_ctrl (l : List Char) :
    ∀ c ∈ removeCtrl l, ctrlChar c = false := by
  intro c hc
  have := (List.mem_filter.mp hc).2
  simpa using this

theorem removeCtrl_subset (l : List Char) : ∀ c ∈ removeCtrl l, c ∈ l :=
  fun _ hc => (List.mem_filter.mp hc).1

theorem removeCtrl_eq_self {l : List Char}
    (h : ∀ c ∈ l, ctrlChar c = false) : removeCtrl l = l :=
  List.filter_eq_self.mpr (fun c hc => by simp [h c hc])

theorem removeCtrl_length (l : List Char) :
    (removeCtrl l).length ≤ l.length := List.length_filter_le _ l

theorem replaceDotDot_mem (l : List Char) :
    ∀ c ∈ replaceDotDot l, c ∈ l ∨ c = '_' := by
  induction l using twoStepInduction with
  | h0 => simp [replaceDotDot]
  | h1 c => simp [replaceDotDot]
  | h2 c d rest ih1 ih2 =>
    intro e he
    simp only [replaceDotDot] at he
    split at he
    · rcases List.mem_cons.mp he with rfl | he
      · exact Or.inr rfl
      · rcases ih1 e he with h | h
        · exact Or.inl (by simp [h])
        · exact Or.inr h
    · rcases List.mem_cons.mp he with rfl | he
      · exact Or.inl (List.mem_cons_self _ _)
      · rcases ih2 e he with h | h
        · exact Or.inl (List.mem_cons.mpr (Or.inr h))
        · exact Or.inr h

theorem replaceDotDot_length (l : List Char) :
    (replaceDotDot l).length ≤ l.length := by
  induction l using twoStepInduction with
  | h0 => simp [replaceDotDot]
  | h1 c => simp [replaceDotDot]
  | h2 c d rest ih1 ih2 =>
    simp only [replaceDotDot]
    split
    · simp only [List.length_cons]
      omega
    · simp only [List.length_cons] at *
      omega

theorem hasDotDot_cons_ne {c : Char} (y : List Char) (h : c ≠ '.') :
    hasDotDot (c :: y) = hasDotDot y := by
  cases y with
  | nil => simp [hasDotDot]
  | cons d r => simp [hasDotDot, h]

theorem hasDotDot_cons_head {c : Char} {y : List Char}
    (h : y.head? ≠ some '.') : hasDotDot (c :: y) = hasDotDot y := by
  cases y with
  | nil => simp [hasDotDot]
  | cons d r =>
    have hd : d ≠ '.' := by simpa using h
    simp [hasDotDot, hd]

theorem replaceDotDot_head {d : Char} (r : List Char) (h : d ≠ '.') :
    (replaceDotDot (d :: r)).head? = some d := by
  cases r with
  | nil => rfl
  | cons e r' =>
    simp only [replaceDotDot]
    rw [if_neg (by tauto)]
    rfl

theorem replaceDotDot_no_dotdot (l : List Char) :
    hasDotDot (replaceDotDot l) = false := by
  induction l using twoStepInduction with
  | h0 => rfl
  | h1 c => rfl
  | h2 c d rest ih1 ih2 =>
    simp only [replaceDotDot]
    split
    · rw [hasDotDot_cons_ne _ (by decide)]
      exact ih1
    · next h =>
      by_cases hc : c = '.'
      · have hd : d ≠ '.' := fun hd => h ⟨hc, hd⟩
        rw [hasDotDot_cons_head (by rw [replaceDotDot_head rest hd]; simpa using hd)]
        exact ih2
      · rw [hasDotDot_cons_ne _ hc]
        exact ih2

theorem replaceDotDot_eq_self {l : List Char} (h : hasDotDot l = false) :
    replaceDotDot l = l := by
  induction l using twoStepInduction with
  | h0 => rfl
  | h1 c => rfl
  | h2 c d rest ih1 ih2 =>
    simp only [hasDotDot, Bool.or_eq_false_iff, Bool.and_eq_false_iff] at h
    simp only [replaceDotDot]
    rw [if_neg (by rcases h.1 with h' | h' <;> simp at h' <;> tauto)]
    exact congrArg (c :: ·) (ih2 h.2)

theorem cleanChars_good (l : List Char) : ∀ c ∈ cleanChars l, goodChar c := by
  intro c hc
  rcases replaceDotDot_mem _ c hc with h | rfl
  · exact ⟨replaceForbidden_no_forbidden l c (removeCtrl_subset _ c h),
      removeCtrl_no_ctrl _ c h⟩
  · exact ⟨by decide, by decide⟩

theorem cleanChars_no_dotdot (l : List Char) : hasDotDot (cleanChars l) = false :=
  replaceDotDot_no_dotdot _

theorem cleanChars_length (l : List Char) : (cleanChars l).length ≤ l.length :=
  le_trans (replaceDotDot_length _)
    (le_trans (removeCtrl_length _) (le_of_eq (replaceForbidden_length l)))

theorem cleanChars_eq_self {l : List Char} (h1 : ∀ c ∈ l, goodChar c)
    (h2 : hasDotDot l = false) : cleanChars l = l := by
  unfold cleanChars
  rw [replaceForbidden_eq_self (fun c hc => (h1 c hc).1),
    removeCtrl_eq_self (fun c hc => (h1 c hc).2), replaceDotDot_eq_self h2]

theorem pySplitext_subset (x : List Char) :
    (∀ c ∈ (pySplitext x).1, c ∈ x) ∧ ∀ c ∈ (pySplitext x).2, c ∈ x := by
  unfold pySplitext
  dsimp only
  split
  · split
    · exact ⟨fun c hc => List.take_subset _ _ hc, fun c hc => List.drop_subset _ _ hc⟩
    · exact ⟨fun c hc => hc, fun c hc => (List.not_mem_nil c hc).elim⟩
  · exact ⟨fun c hc => hc, fun c hc => (List.not_mem_nil c hc).elim⟩

theorem truncate100_mem (x : List Char) : ∀ c ∈ truncate100 x, c ∈ x := by
  intro c hc
  unfold truncate100 at hc
  split at hc
  · rcases List.mem_append.mp hc with h | h
    · exact (pySplitext_subset x).1 c (List.take_subset _ _ h)
    · exact (pySplitext_subset x).2 c h
  · exact hc

theorem truncate100_eq_self {x : List Char} (h : x.length ≤ 100) :
    truncate100 x = x := by
  unfold truncate100
  rw [if_neg (by omega)]

theorem fileData_eq : "file".data = ['f', 'i', 'l', 'e'] := rfl

theorem finalFixup_ne_nil (x : List Char) : finalFixup x ≠ [] := by
  unfold finalFixup
  split
  · decide
  · split
    · rw [fileData_eq]
      simp
    · next h _ => exact h

theorem finalFixup_head (x : List Char) : (finalFixup x).head? ≠ some '.' := by
  unfold finalFixup
  split
  · decide
  · split
    · rw [fileData_eq, List.cons_append]
      simp
    · next _ h => exact h

theorem finalFixup_good {x : List Char} (h : ∀ c ∈ x, goodChar c) :
    ∀ c ∈ finalFixup x, goodChar c := by
  intro c hc
  unfold finalFixup at hc
  split at hc
  · have : c ∈ ['f', 'i', 'l', 'e', '.', 'b', 'i', 'n'] := hc
    simp only [List.mem_cons, List.not_mem_nil, or_false] at this
    rcases this with rfl | rfl | rfl | rfl | rfl | rfl | rfl | rfl <;>
      exact ⟨by decide, by decide⟩
  · split at hc
    · rcases List.mem_append.mp hc with h' | h'
      · rw [fileData_eq] at h'
        simp only [List.mem_cons, List.not_mem_nil, or_false] at h'
        rcases h' with rfl | rfl | rfl | rfl <;> exact ⟨by decide, by decide⟩
      · exact h c h'
    · exact h c hc

/-- All of C3's universally valid output properties, for the sanitizer. -/
theorem sanitizeList_props (l : List Char) :
    sanitizeList l ≠ [] ∧ (sanitizeList l).head? ≠ some '.' ∧
      ∀ c ∈ sanitizeList l, goodChar c := by
  refine ⟨finalFixup_ne_nil _, finalFixup_head _, finalFixup_good ?_⟩
  exact fun c hc => cleanChars_good l c (truncate100_mem _ c hc)

theorem fileAppend_good {l3 : List Char} (hgood : ∀ c ∈ l3, goodChar c) :
    ∀ c ∈ "file".data ++ l3, goodChar c := by
  intro c hc
  rcases List.mem_append.mp hc with h' | h'
  · rw [fileData_eq] at h'
    simp only [List.mem_cons, List.not_mem_nil, or_false] at h'
    rcases h' with rfl | rfl | rfl | rfl <;> exact ⟨by decide, by decide⟩
  · exact hgood c h'

theorem fileAppend_no_dotdot {l3 : List Char} (hnod : hasDotDot l3 = false) :
    hasDotDot ("file".data ++ l3) = false := by
  rw [fileData_eq]
  simp only [List.cons_append, List.nil_append]
  rw [hasDotDot_cons_ne _ (by decide), hasDotDot_cons_ne _ (by decide),
    hasDotDot_cons_ne _ (by decide), hasDotDot_cons_ne _ (by decide)]
  exact hnod

/-- Sanitization is idempotent whenever the input is short enough that
neither the truncation step nor the `"file"` prefix can push the result
past 100 characters. -/
theorem sanitizeList_idem {l : List Char} (h : l.length ≤ 96) :
    sanitizeList (sanitizeList l) = sanitizeList l := by
  have hlen3 : (cleanChars l).length ≤ 96 := le_trans (cleanChars_length l) h
  have hgood := cleanChars_good l
  have hnod := cleanChars_no_dotdot l
  have hs : sanitizeList l = finalFixup (cleanChars l) := by
    unfold sanitizeList
    rw [truncate100_eq_self (by omega)]
  rw [hs]
  unfold finalFixup
  by_cases h0 : cleanChars l = []
  · rw [if_pos h0]
    decide
  · rw [if_neg h0]
    by_cases hh : (cleanChars l).head? = some '.'
    · rw [if_pos hh]
      have hlent : ("file".data ++ cleanChars l).length ≤ 100 := by
        rw [List.length_append, fileData_eq]
        simp only [List.length_cons, List.length_nil]
        omega
      unfold sanitizeList
      rw [cleanChars_eq_self (fileAppend_good hgood) (fileAppend_no_dotdot hnod),
        truncate100_eq_self hlent]
      unfold finalFixup
      rw [if_neg (by rw [fileData_eq]; simp),
        if_neg (by rw [fileData_eq, List.cons_append]; simp)]
    · rw [if_neg hh]
      unfold sanitizeList
      rw [cleanChars_eq_self hgood hnod, truncate100_eq_self (by omega)]
      unfold finalFixup
      rw [if_neg h0, if_neg hh]

/-- C9 is false as stated: `89 a's + "..ext"` is the output of the
sanitization post-processing on `c9input` (the truncation of lines 376-378
recreated a `..`), and applying the post-processing to that output changes
it — line 373's `replace('..', '_')` rewrites it to `89 a's + "_ext"`.  The
three conjuncts exhibit the full trace: the first sanitization, the second,
and their disagreement. -/
theorem sanitizeFilename_idem_counterexample :
    sanitizeFilename (String.mk c9input) = String.mk c9once ∧
    sanitizeFilename (String.mk c9once) = String.mk c9twice ∧
    sanitizeFilename (sanitizeFilename (String.mk c9input)) ≠
      sanitizeFilename (String.mk c9input) := by
  exact ⟨by decide, by decide, by decide⟩

/-- C9 (amended): sanitization is idempotent on every input of length at
most 96.  The bound keeps the cleaned string at or below 96 characters, so
the truncation step (the only step that can recreate a `..`) cannot
trigger, and even after the 4-character `"file"` prefix of line 382 the
second pass stays at or below 100 characters and leaves the string
untouched. -/
theorem sanitizeFilename_idem (s : String) (h : s.length ≤ 96) :
    sanitizeFilename (sanitizeFilename s) = sanitizeFilename s :=
  congrArg String.mk (sanitizeList_idem (h : s.data.length ≤ 96))

/-- Witness for C9 (amended): a concrete short input on which both passes
agree (`"ab..c"` sanitizes to `"ab_c"`, which re-sanitizes to itself). -/
theorem sanitizeFilename_idem_witness :
    sanitizeFilename (sanitizeFilename "ab..c") = sanitizeFilename "ab..c" :=
  sanitizeFilename_idem "ab..c" (by decide)

/-- C3 (amended): the resolver's output is always non-empty, never starts
with a dot, and contains no forbidden or control character.  (The ≤100-length
bound and absence of `..` of the original claim fail: see the
counterexample.) -/
theorem resolveFilename_contract (cd : List Char) (u : ParsedUrl) (ct : List Char) :
    resolveFilename cd u ct ≠ [] ∧
      (resolveFilename cd u ct).head? ≠ some '.' ∧
      ∀ c ∈ resolveFilename cd u ct, forbiddenChar c = false ∧ ctrlChar c = false := by
  unfold resolveFilename
  dsimp only
  split
  · exact ⟨by decide, by decide, by decide⟩
  · exact sanitizeList_props (chooseFilename cd u ct)

/-- Witness for C3 (amended): concrete empty-input resolution. -/
theorem resolveFilename_contract_witness :
    resolveFilename [] ⟨"", []⟩ [] ≠ [] ∧
      (forbiddenChar 'f' = false ∧ ctrlChar 'f' = false) :=
  ⟨(resolveFilename_contract [] ⟨"", []⟩ []).1,
   (resolveFilename_contract [] ⟨"", []⟩ []).2.2 'f' (by decide)⟩

/-- C3 is false as stated: this reachable input resolves to a filename of
101 characters containing `..` (truncation keeps the whole 11-character
extension and the truncated stem ends with a dot). -/
theorem resolveFilename_contract_counterexample :
    100 < c3out.length ∧ hasDotDot c3out = true := by decide

/-- On a successful release creation followed by a failed upload, the
pipeline's exact result: the wrapped upload error, and the action trace
fetch / create / upload / delete. -/
theorem pipeline_upload_failure (env : RemoteEnv) (fileId : String) (now : Nat)
    (hfetch : env.fetchOk = true)
    (hcreate : (env.createResp (envTag fileId now)).status = 201)
    (hupload : env.uploadStatus ≠ 201) :
    download_and_upload_to_github env fileId now =
      (Except.error ("Processing failed: GitHub upload failed: Upload error: "
          ++ pyStrNat env.uploadStatus),
        [RemoteAction.fetch,
         RemoteAction.createRelease (envTag fileId now)
           ("File-" ++ String.mk ((envFilename env).take 30)),
         RemoteAction.uploadAsset (env.createResp (envTag fileId now)).release.rid
           (envFilename env) env.chunkSizes.sum,
         RemoteAction.deleteRelease
           (env.createResp (envTag fileId now)).release.rid]) := by
  unfold envTag at hcreate
  unfold download_and_upload_to_github create_github_release envTag envFilename
  rw [if_neg (by rw [hfetch]; decide)]
  dsimp only
  rw [if_pos hcreate]
  dsimp only
  rw [if_neg hupload]

/-- On success of every remote call the pipeline returns the assembled
`file_info` and the trace fetch / create / upload. -/
theorem pipeline_success (env : RemoteEnv) (fileId : String) (now : Nat)
    (hfetch : env.fetchOk = true)
    (hcreate : (env.createResp (envTag fileId now)).status = 201)
    (hupload : env.uploadStatus = 201) :
    download_and_upload_to_github env fileId now =
      (Except.ok
        { filename := envFilename env,
          contentType := env.contentTypeHdr.getD "application/octet-stream".data,
          fileSize := env.chunkSizes.sum,
          githubReleaseId := (env.createResp (envTag fileId now)).release.rid,
          githubAssetId := env.uploadAsset.aid,
          downloadUrl := env.uploadAsset.browserDownloadUrl,
          releaseUrl := (env.createResp (envTag fileId now)).release.htmlUrl },
        [RemoteAction.fetch,
         RemoteAction.createRelease (envTag fileId now)
           ("File-" ++ String.mk ((envFilename env).take 30)),
         RemoteAction.uploadAsset (env.createResp (envTag fileId now)).release.rid
           (envFilename env) env.chunkSizes.sum]) := by
  unfold envTag at hcreate
  unfold download_and_upload_to_github create_github_release envTag envFilename
  rw [if_neg (by rw [hfetch]; decide)]
  dsimp only
  rw [if_pos hcreate]
  dsimp only
  rw [if_pos hupload]

/-- C1: when release creation succeeds but the asset upload fails, the run
attempts `delete_release` for the just-created release (whatever the
outcome `deleteOk` of that deletion), the wrapped upload error is returned
as a 500, and no store is ever passed to `save_links`. -/
theorem upload_failure_no_record (env : RemoteEnv) (u customName : String)
    (links : Links) (now : Nat) (nowIso : String)
    (hu : u ≠ "")
    (hfetch : env.fetchOk = true)
    (hcreate : ∀ t, (env.createResp t).status = 201)
    (hupload : env.uploadStatus ≠ 201)
    (hname : customName = "" ∨ assocGet links customName = none) :
    (create_permanent_link (some u) customName true links env now nowIso).2.1 = [] ∧
    RemoteAction.deleteRelease
        (env.createResp (envTag (if customName ≠ "" then customName
          else get_next_consecutive_id (links.map Prod.fst)) now)).release.rid ∈
      (create_permanent_link (some u) customName true links env now nowIso).2.2 ∧
    (create_permanent_link (some u) customName true links env now nowIso).1 =
      CreateResp.serverError ("Server error: " ++
        ("Processing failed: GitHub upload failed: Upload error: "
          ++ pyStrNat env.uploadStatus)) := by
  have hpipe := fun linkId => pipeline_upload_failure env linkId now hfetch
    (hcreate _) hupload
  unfold create_permanent_link
  dsimp only
  rw [if_neg hu, if_neg (by decide)]
  rw [if_neg (fun hand => by
    rcases hname with h | h
    · exact hand.1 h
    · rw [if_pos hand.1, h] at hand
      exact Bool.false_ne_true hand.2)]
  rw [hpipe _]
  refine ⟨rfl, ?_, rfl⟩
  simp

/-- Witness for C1: the concrete run deletes release 77, saves nothing and
returns the wrapped upload error. -/
theorem upload_failure_no_record_witness :
    (create_permanent_link (some "http://tmp/video.mp4") "" true [] c1env 9 "t").2.1 = [] ∧
    RemoteAction.deleteRelease 77 ∈
      (create_permanent_link (some "http://tmp/video.mp4") "" true [] c1env 9 "t").2.2 :=
  have h := upload_failure_no_record c1env "http://tmp/video.mp4" "" [] 9 "t"
    (by decide) rfl (fun _ => rfl) (by decide) (Or.inl rfl)
  ⟨h.1, h.2.1⟩

/-- C4 is false as stated: a body exceeding 2GB (`2^31 + 1` bytes) is fully
downloaded, accepted, and uploaded; no size-limit failure occurs. -/
theorem no_size_limit_counterexample :
    (download_and_upload_to_github c4env "0" 1).1.map (fun fi => fi.fileSize) =
      Except.ok (2 ^ 31 + 1) ∧
    RemoteAction.uploadAsset 77 "v.mp4".data (2 ^ 31 + 1) ∈
      (download_and_upload_to_github c4env "0" 1).2 := by
  exact ⟨rfl, by decide⟩

/-- C4 (amended): the FETCHING phase enforces no maximum size: whenever the
fetch and the remote calls succeed, the pipeline accepts the whole body,
whatever its total size, and reports exactly that size. -/
theorem no_size_limit (env : RemoteEnv) (fileId : String) (now : Nat)
    (hfetch : env.fetchOk = true)
    (hcreate : (env.createResp (envTag fileId now)).status = 201)
    (hupload : env.uploadStatus = 201) :
    (download_and_upload_to_github env fileId now).1.map (fun fi => fi.fileSize) =
      Except.ok env.chunkSizes.sum := by
  rw [pipeline_success env fileId now hfetch hcreate hupload]
  rfl

/-- Witness for C4 (amended): concrete oversized run. -/
theorem no_size_limit_witness :
    (download_and_upload_to_github c4env "7" 2).1.map (fun fi => fi.fileSize) =
      Except.ok (2 ^ 31 + 1) :=
  no_size_limit c4env "7" 2 rfl rfl rfl

/-- C5 is false as stated: on a tag-collision response (422), the function
posts exactly one request with the original tag, no retry with a uniquified
tag happens, and the error is raised immediately. -/
theorem create_release_no_retry_counterexample :
    (create_github_release (fun _ => ⟨422, ⟨0, ""⟩⟩) "t0" "File-x").2 =
      [("t0", "File-x")] ∧
    (create_github_release (fun _ => ⟨422, ⟨0, ""⟩⟩) "t0" "File-x").1 =
      Except.error "GitHub API failed: API error: 422" :=
  ⟨rfl, rfl⟩

/-- C5 (amended): `create_github_release` posts exactly one request (the
original tag and name) and fails on every non-201 response, including
"tag already exists"; no response triggers a retry. -/
theorem create_release_no_retry (responder : String → GhApiResponse)
    (tagName nm : String) :
    (create_github_release responder tagName nm).2 = [(tagName, nm)] ∧
    ((responder tagName).status = 201 →
      (create_github_release responder tagName nm).1 =
        Except.ok (responder tagName).release) ∧
    ((responder tagName).status ≠ 201 →
      (create_github_release responder tagName nm).1 =
        Except.error ("GitHub API failed: API error: "
          ++ pyStrNat (responder tagName).status)) := by
  unfold create_github_release
  dsimp only
  refine ⟨by split <;> rfl, fun h => by rw [if_pos h], fun h => by rw [if_neg h]⟩

/-- Witness for C5 (amended): a concrete 500 response fails in one call. -/
theorem create_release_no_retry_witness :
    (create_github_release (fun _ => ⟨500, ⟨0, ""⟩⟩) "t" "n").1 =
      Except.error ("GitHub API failed: API error: " ++ pyStrNat 500) :=
  (create_release_no_retry (fun _ => ⟨500, ⟨0, ""⟩⟩) "t" "n").2.2 (by decide)

/-- C6 (code bug): the pattern list would extract `report.pdf` from a header
carrying only the RFC 5987 extended form, but the enclosing guard
`if 'filename=' in content_disposition:` is false for that header (the
literal substring `filename=` does not occur in `filename*=`), so the
resolver ignores the header and falls through to the URL path. -/
theorem rfc5987_only_header_ignored :
    cdFilename c6cd = none ∧
    tryPatterns c6cd = some "report.pdf".data ∧
    resolveFilename c6cd ⟨"/files/video.mp4", []⟩ "application/pdf".data =
      "video.mp4".data := by
  exact ⟨by decide, by decide, by decide⟩

/-- C7 counterexample: a backing file parsing to valid JSON that is not a
mapping (`[]`) yields an empty mapping but, contrary to the claim, performs
no backup rename. -/
theorem load_links_nondict_counterexample :
    load_links (StoreFile.parsed (PyJson.arr [])) 5 = ([], []) := rfl

/-- C7 (amended): `load_links` is total (never raises): a missing file
yields an empty mapping; a file with invalid JSON yields an empty mapping
and a rename to the timestamped backup name; valid JSON that is not a
mapping yields an empty mapping **without** any rename; a mapping is
returned as is. -/
theorem load_links_recovery (ts : Nat) :
    load_links StoreFile.missing ts = ([], []) ∧
    load_links StoreFile.badJson ts =
      ([], [LoadAction.renameBackup ("links.json.backup." ++ pyStrNat ts)]) ∧
    (∀ v : PyJson, (∀ d, v ≠ PyJson.dict d) →
      load_links (StoreFile.parsed v) ts = ([], [])) ∧
    (∀ d, load_links (StoreFile.parsed (PyJson.dict d)) ts = (d, [])) := by
  refine ⟨rfl, rfl, ?_, fun d => rfl⟩
  intro v hv
  cases v with
  | dict d => exact absurd rfl (hv d)
  | str s => rfl
  | num n => rfl
  | boolean b => rfl
  | null => rfl
  | arr xs => rfl

/-- Witness for C7 (amended): a concrete non-mapping parse outcome. -/
theorem load_links_recovery_witness :
    load_links (StoreFile.parsed (PyJson.str "oops")) 3 = ([], []) :=
  (load_links_recovery 3).2.2.1 (PyJson.str "oops") (fun _ h => PyJson.noConfusion h)

/-- C8: `/download/<id>` on an unknown id replies 404 and saves nothing;
on a known id with a well-formed record, it increments `access_count` by
exactly one, saves the updated store, and redirects to
`file_info.download_url`. -/
theorem download_file_spec (linkId : String) (links : Links) :
    (assocGet links linkId = none →
      download_file linkId links = (DlResp.notFound, [])) ∧
    (∀ entries n fi u,
      assocGet links linkId = some (PyJson.dict entries) →
      assocGet entries "access_count" = some (PyJson.num n) →
      assocGet entries "file_info" = some (PyJson.dict fi) →
      assocGet fi "download_url" = some (PyJson.str u) →
      download_file linkId links =
        (DlResp.redirect u,
          [assocSet links linkId
            (PyJson.dict (assocSet entries "access_count" (PyJson.num (n + 1))))])) := by
  constructor
  · intro h
    unfold download_file
    rw [h]
  · intro entries n fi u h1 h2 h3 h4
    simp only [download_file, h1, h2, h3, h4]

/-- Witness for C8: unknown id `"9"` gives 404 with no save; known id `"7"`
redirects and saves the store with `access_count` bumped from 4 to 5. -/
theorem download_file_spec_witness :
    download_file "9" c8store = (DlResp.notFound, []) ∧
    download_file "7" c8store =
      (DlResp.redirect "https://dl.example/a.bin",
        [assocSet c8store "7"
          (PyJson.dict (assocSet c8inner "access_count" (PyJson.num 5)))]) :=
  ⟨(download_file_spec "9" c8store).1 rfl,
   (download_file_spec "7" c8store).2 c8inner 4
     [("download_url", PyJson.str "https://dl.example/a.bin")]
     "https://dl.example/a.bin" rfl rfl rfl rfl⟩

/-- C10: on a stored record whose `file_info` is missing or lacks a
`download_url`, `/download/<id>` still increments and saves `access_count`
(the update is not rolled back) and then replies 500 instead of a
redirect. -/
theorem download_file_malformed (linkId : String) (links : Links)
    (entries : List (String × PyJson)) (n : Int)
    (h1 : assocGet links linkId = some (PyJson.dict entries))
    (h2 : assocGet entries "access_count" = some (PyJson.num n))
    (h3 : assocGet entries "file_info" = none ∨
      ∃ fi, assocGet entries "file_info" = some (PyJson.dict fi) ∧
        assocGet fi "download_url" = none) :
    (download_file linkId links).2 =
      [assocSet links linkId
        (PyJson.dict (assocSet entries "access_count" (PyJson.num (n + 1))))] ∧
    (download_file linkId links).1 = DlResp.err500 "Error accessing file" := by
  rcases h3 with h3 | ⟨fi, h3, h4⟩
  · simp [download_file, h1, h2, h3]
  · simp [download_file, h1, h2, h3, h4]

/-- Witness for C10: the malformed record still gets its counter bumped and
saved, and the reply is a 500. -/
theorem download_file_malformed_witness :
    (download_file "0" c10store).2 =
      [[("0", PyJson.dict [("access_count", PyJson.num 1)])]] ∧
    (download_file "0" c10store).1 = DlResp.err500 "Error accessing file" :=
  download_file_malformed "0" c10store [("access_count", PyJson.num 0)] 0 rfl rfl
    (Or.inl rfl)

end FilesApp
